import Mathlib

/-!
The shelter scraper and the arrivals board of go-experiments.

A shallow embedding of `tierschutz-berlin/tierschutz-berlin.go` and of
`airport-arrivals/airport-arrivals.go`.

Conventions of the embedding.

* The Go standard library is not part of the repository.  Network retrieval and
  regular-expression matching are taken as parameters (`Env`, `ArrivalsEnv`):
  every theorem holds for every behaviour of the network and of the pattern
  matcher.
* `log.Fatal*` ends the process with `os.Exit(1)`.  A function that can reach
  such a call returns an `Option`; `none` stands for "the process was
  terminated, nothing was returned".
* A Go result pair `(value, err)` is a Lean pair `value × Option GoError`.
* Goroutines that complete in an arbitrary order are modelled by a list of
  choices: each receive on the channel takes one of the goroutines that have
  not been received yet.  Theorems quantify over all choice lists.
* Writing fetched pages and results to disk is not modelled, except that a
  result file is written only when the code reaches `SaveResult`.
-/

namespace Tierschutz

/-! ## Data model -/

/-- Go `error` values that the program can produce. -/
inductive GoError where
  /-- an error returned by `http.Get` or `ioutil.ReadAll` -/
  | transport (cause : String)
  /-- `strconv.ErrSyntax` from `strconv.ParseInt` -/
  | parseIntInvalid
  /-- `strconv.ErrRange` from `strconv.ParseInt` -/
  | parseIntRange
  /-- the error built by `fmt.Errorf` in `ParseNameAndURL` -/
  | nameAndURL
  deriving DecidableEq, Repr

/-- The `Animal` struct. -/
structure Animal where
  Name : String
  URL : String
  Note : String
  Images : List String
  deriving DecidableEq, Repr

/-- The `AnimalSource` struct. -/
structure AnimalSource where
  Name : String
  URLs : List String
  deriving DecidableEq, Repr

/-- What `http.Get` and `ioutil.ReadAll` deliver when neither returns an error:
the status code of the answer and its body.  `http.Get` returns no error for an
answer with a status code outside 200-299. -/
structure Response where
  StatusCode : Nat
  Body : String
  deriving DecidableEq, Repr

/-- The external world of the scraper: the network and the five compiled
regular expressions.  A submatch is the list `[whole match, group 1, ...]`. -/
structure Env where
  /-- `http.Get(url)` followed by `ioutil.ReadAll(resp.Body)` -/
  httpGet : String → Except GoError Response
  /-- `totalAnimalsRegExp.FindSubmatch(page)`; the empty list is Go's `nil` -/
  totalAnimalsFind : String → List String
  /-- `animalRegExp.FindAllSubmatch(page, -1)` -/
  animalFindAll : String → List (List String)
  /-- `nameAndURLRegExp.FindAllSubmatch(animalSubmatch, 1)` -/
  nameAndURLFindAll : String → List (List String)
  /-- `noteRegExp.FindAllSubmatch(animalSubmatch, 1)` -/
  noteFindAll : String → List (List String)
  /-- `imagesRegExp.FindAllSubmatch(animalSubmatch, -1)` -/
  imagesFindAll : String → List (List String)

/-! ## Library functions used by the scraper -/

deriving instance DecidableEq for Except

/-- The value of a string of decimal digits, `none` when a character is not a
digit (the digit loop of `strconv.ParseUint` in base 10). -/
def digitsValue : List Char → Nat → Option Nat
  | [], acc => some acc
  | c :: cs, acc =>
    if '0' ≤ c ∧ c ≤ '9' then digitsValue cs (acc * 10 + (c.toNat - 48)) else none

/-- `strconv.ParseInt(s, 10, 32)`: an optional sign, then at least one decimal
digit; the value must fit a signed 32-bit integer. -/
def parseInt32 (s : String) : Except GoError Int :=
  match s.data with
  | [] => .error .parseIntInvalid
  | c :: cs =>
    let neg : Bool := c = '-'
    let ds : List Char := if c = '+' ∨ c = '-' then cs else c :: cs
    match ds with
    | [] => .error .parseIntInvalid
    | d :: ds' =>
      match digitsValue (d :: ds') 0 with
      | none => .error .parseIntInvalid
      | some un =>
        if neg then
          if un > 2147483648 then .error .parseIntRange else .ok (-(un : Int))
        else
          if un ≥ 2147483648 then .error .parseIntRange else .ok (un : Int)

/-- `strings.Replace(s, "\n", "", -1)`. -/
def removeNewlines (s : String) : String :=
  String.mk (s.data.filter (fun c => c != '\n'))

/-! ## The scraper -/

/-- `GetPageContent`: the body of the answer without its newline characters;
the status code of the answer is not read.
`SavePageContent`, which archives the page on disk, is taken to succeed (the
address contains a `/` and the file can be written). -/
def GetPageContent (env : Env) (url : String) : Except GoError String :=
  match env.httpGet url with
  | .error err => .error err
  | .ok resp => .ok (removeNewlines resp.Body)

/-- `GetTotalAnimals`: 9 when the count pattern does not match, otherwise the
parsed first group. -/
def GetTotalAnimals (env : Env) (page : String) : Except GoError Int :=
  let totalAnimals := env.totalAnimalsFind page
  if totalAnimals.length = 0 then
    .ok 9
  else
    match parseInt32 (totalAnimals.getD 1 "") with
    | .error err => .error err
    | .ok total => .ok total

/-- `ParseNameAndURL`: the pair `(url, name)`, or an error. -/
def ParseNameAndURL (env : Env) (animalSubmatch : String) : Except GoError (String × String) :=
  let nameAndURLRegExpResult := env.nameAndURLFindAll animalSubmatch
  if nameAndURLRegExpResult.length = 1 ∧ (nameAndURLRegExpResult.getD 0 []).length = 3 then
    let url := "http://www.tierschutz-berlin.de/" ++ (nameAndURLRegExpResult.getD 0 []).getD 1 ""
    let name := (nameAndURLRegExpResult.getD 0 []).getD 2 ""
    .ok (url, name)
  else
    .error .nameAndURL

/-- `ParseNote`; it never fails. -/
def ParseNote (env : Env) (animalSubmatch : String) : Except GoError String :=
  let noteRegExpResult := env.noteFindAll animalSubmatch
  if noteRegExpResult.length ≠ 0 then
    .ok ((noteRegExpResult.getD 0 []).getD 1 "")
  else
    .ok ""

/-- `ParseImages`: every group of every match, prefixed with the site; it never
fails. -/
def ParseImages (env : Env) (animalSubmatch : String) : Except GoError (List String) :=
  .ok ((env.imagesFindAll animalSubmatch).flatMap
    (fun m => (m.drop 1).map (fun g => "http://www.tierschutz-berlin.de/" ++ g)))

/-- `ParseAnimal`. -/
def ParseAnimal (env : Env) (animalSubmatch : String) : Except GoError Animal :=
  match ParseNameAndURL env animalSubmatch with
  | .error err => .error err
  | .ok (url, name) =>
    match ParseNote env animalSubmatch with
    | .error err => .error err
    | .ok note =>
      match ParseImages env animalSubmatch with
      | .error err => .error err
      | .ok images => .ok { Name := name, URL := url, Note := note, Images := images }

/-- The loop of `ParseAnimals` over the matches of the record pattern.  When
`ParseAnimal` fails the code calls `log.Fatalf`, which ends the process. -/
def ParseAnimalsLoop (env : Env) : List (List String) → List Animal → Option (List Animal)
  | [], animals => some animals
  | animal :: rest, animals =>
    match ParseAnimal env (animal.getD 0 "") with
    | .error _ => none
    | .ok a => ParseAnimalsLoop env rest (animals ++ [a])

/-- `ParseAnimals`. -/
def ParseAnimals (env : Env) (page : String) : Option (List Animal) :=
  ParseAnimalsLoop env (env.animalFindAll page) []

/-- `fmt.Sprintf("%s?tx_realty_pi1[pointer]=%d", url, pointer)`. -/
def urlWithPointer (url : String) (pointer : Nat) : String :=
  url ++ "?tx_realty_pi1[pointer]=" ++ toString pointer

/-- `pagesToParse := (totalAnimals / 10) + 1`; Go's `/` truncates toward zero. -/
def pagesToParse (totalAnimals : Int) : Int :=
  Int.tdiv totalAnimals 10 + 1

/-- The values of `pointer` for which the body of
`for pointer := 1; pointer < pagesToParse; pointer++` runs. -/
def pointerLoop (pagesToParse : Int) : List Nat :=
  List.range' 1 (pagesToParse - 1).toNat

/-- The page pointers for which `ParseShelterPage` starts a goroutine, given the
total of the seed page: none unless `totalAnimals > 10`. -/
def launchedPointers (totalAnimals : Int) : List Nat :=
  if totalAnimals > 10 then pointerLoop (pagesToParse totalAnimals) else []

/-- The body of the goroutine started for one additional page: a failed fetch
calls `log.Fatalln`; otherwise the parsed records are sent on the channel. -/
def pageTask (env : Env) (pageUrl : String) : Option (List Animal) :=
  match GetPageContent env pageUrl with
  | .error _ => none
  | .ok pageContent => ParseAnimals env pageContent

/-- The order in which the goroutines deliver: while some are pending, the next
choice (taken modulo the number pending, 0 when the choices are used up) names
the one received next.  `fuel` bounds the number of receives. -/
def completionOrderAux : Nat → List Nat → List Nat → List Nat
  | 0, _, _ => []
  | _ + 1, _, [] => []
  | fuel + 1, choices, p :: ps =>
    let i := choices.headD 0 % (ps.length + 1)
    (p :: ps).getD i p :: completionOrderAux fuel choices.tail ((p :: ps).eraseIdx i)

/-- The completion order of the launched pointers under a list of choices. -/
def completionOrder (choices : List Nat) (pending : List Nat) : List Nat :=
  completionOrderAux pending.length choices pending

/-- The receive loop `for ; pagesToParse > 1; pagesToParse--`: one batch per
launched goroutine, appended in completion order.  A goroutine that ends the
process ends the loop with it. -/
def receiveLoop (env : Env) (url : String) : List Nat → List Animal → Option (List Animal)
  | [], animals => some animals
  | pointer :: rest, animals =>
    match pageTask env (urlWithPointer url pointer) with
    | none => none
    | some parsedAnimals => receiveLoop env url rest (animals ++ parsedAnimals)

/-- `ParseShelterPage`; `choices` fixes the completion order of the additional
pages. -/
def ParseShelterPage (env : Env) (choices : List Nat) (url : String) :
    Option (List Animal × Option GoError) :=
  match GetPageContent env url with
  | .error err => some ([], some err)
  | .ok pageContent =>
    match GetTotalAnimals env pageContent with
    | .error err => some ([], some err)
    | .ok totalAnimals =>
      match ParseAnimals env pageContent with
      | none => none
      | some animals =>
        if totalAnimals > 10 then
          match receiveLoop env url
              (completionOrder choices (pointerLoop (pagesToParse totalAnimals))) animals with
          | none => none
          | some animals => some (animals, none)
        else
          some (animals, none)

/-- The loop of `ParseShelterPages`; the head of `scheds` is the choice list of
the next call of `ParseShelterPage`. -/
def ParseShelterPagesLoop (env : Env) :
    List (List Nat) → List String → List Animal → Option (List Animal × Option GoError)
  | _, [], animals => some (animals, none)
  | scheds, url :: urls, animals =>
    match ParseShelterPage env (scheds.headD []) url with
    | none => none
    | some (_, some err) => some (animals, some err)
    | some (animalsFromUrl, none) =>
      ParseShelterPagesLoop env scheds.tail urls (animals ++ animalsFromUrl)

/-- `ParseShelterPages`. -/
def ParseShelterPages (env : Env) (scheds : List (List Nat)) (urls : List String) :
    Option (List Animal × Option GoError) :=
  ParseShelterPagesLoop env scheds urls []

/-- The goroutine that `main` starts for one source: an error of
`ParseShelterPages` calls `log.Fatalln`; otherwise the records are marshalled
and `SaveResult` writes them under the name of the source. -/
def sourceTask (env : Env) (scheds : List (List Nat)) (source : AnimalSource) :
    Option (String × List Animal) :=
  match ParseShelterPages env scheds source.URLs with
  | none => none
  | some (_, some _) => none
  | some (parsedAnimals, none) => some (source.Name, parsedAnimals)

/-- The records that a source contributes to the output: those of its saved
result, none when no result was saved. -/
def savedRecords (env : Env) (scheds : List (List Nat)) (source : AnimalSource) : List Animal :=
  match sourceTask env scheds source with
  | none => []
  | some (_, animals) => animals

/-- The merged sequence when the seed URLs are taken in declaration order and
the seed URL `u`, handled under the choice list `c`, contributes `contrib c u`. -/
def mergeInSeedOrder (contrib : List Nat → String → List Animal) :
    List (List Nat) → List String → List Animal
  | _, [] => []
  | scheds, u :: us => contrib (scheds.headD []) u ++ mergeInSeedOrder contrib scheds.tail us

/-- The count that the pagination contract of the specification asks for:
`max(0, ceil(total/10) - 1)` additional pages. -/
def specPlanSize (total : Nat) : Nat :=
  (total + 9) / 10 - 1

/-! ## A concrete site

The seeds are `http://t/A`, ..., `http://t/K`, written `A`, ..., `K` below.
Seed `A` announces 11 animals: one on the seed page, one on page 1.
Seed `B` has no count signal and two animals.
Seed `C` has no count signal and ten animals.
Seed `D` has no count signal and three record matches, the first without name
and link.
Seed `G` announces 95 animals; of its pages 1 to 9 only page 9 cannot be
fetched.
Seed `H` announces 25 animals: one on the seed page, one on each of the pages
1 and 2.
Seed `K` announces 11 animals, one on the seed page; its page 1 is answered
with status 404 and a body that matches no pattern.
Every other address cannot be fetched. -/

/-- The network and pattern matcher of the concrete site. -/
def siteEnv : Env where
  httpGet := fun url =>
    if url = "http://t/A" then .ok ⟨200, "pA\n"⟩
    else if url = "http://t/A?tx_realty_pi1[pointer]=1" then .ok ⟨200, "pA1"⟩
    else if url = "http://t/B" then .ok ⟨200, "pB"⟩
    else if url = "http://t/C" then .ok ⟨200, "pC"⟩
    else if url = "http://t/D" then .ok ⟨200, "pD"⟩
    else if url = "http://t/G" then .ok ⟨200, "pG"⟩
    else if url = "http://t/G?tx_realty_pi1[pointer]=9" then
      .error (.transport "connection reset")
    else if "http://t/G?".data.isPrefixOf url.data then .ok ⟨200, "pGn"⟩
    else if url = "http://t/H" then .ok ⟨200, "pH"⟩
    else if url = "http://t/H?tx_realty_pi1[pointer]=1" then .ok ⟨200, "pH1"⟩
    else if url = "http://t/H?tx_realty_pi1[pointer]=2" then .ok ⟨200, "pH2"⟩
    else if url = "http://t/K" then .ok ⟨200, "pK"⟩
    else if url = "http://t/K?tx_realty_pi1[pointer]=1" then .ok ⟨404, "404 page not found"⟩
    else .error (.transport "connection refused")
  totalAnimalsFind := fun page =>
    if page = "pA" then ["<td>&nbsp;(11 Tiere)</td>", "11"]
    else if page = "pG" then ["<td>&nbsp;(95 Tiere)</td>", "95"]
    else if page = "pH" then ["<td>&nbsp;(25 Tiere)</td>", "25"]
    else if page = "pK" then ["<td>&nbsp;(11 Tiere)</td>", "11"]
    else []
  animalFindAll := fun page =>
    if page = "pA" then [["a0"]]
    else if page = "pA1" then [["a1"]]
    else if page = "pB" then [["b0"], ["b1"]]
    else if page = "pC" then
      [["c0"], ["c1"], ["c2"], ["c3"], ["c4"], ["c5"], ["c6"], ["c7"], ["c8"], ["c9"]]
    else if page = "pD" then [["bad"], ["d1"], ["d2"]]
    else if page = "pG" then [["g0"]]
    else if page = "pGn" then [["gn"]]
    else if page = "pH" then [["h0"]]
    else if page = "pH1" then [["h1"]]
    else if page = "pH2" then [["h2"]]
    else if page = "pK" then [["k0"]]
    else []
  nameAndURLFindAll := fun sub =>
    if sub = "bad" then [] else [["<h3>", sub ++ ".html", sub]]
  noteFindAll := fun _ => []
  imagesFindAll := fun _ => []

/-- The record that the concrete site holds under a name. -/
def siteAnimal (name : String) : Animal :=
  { Name := name, URL := "http://www.tierschutz-berlin.de/" ++ name ++ ".html",
    Note := "", Images := [] }

/-- The page of a seed of the concrete site. -/
def sitePage (u : String) : String :=
  if u = "http://t/A" then "pA"
  else if u = "http://t/B" then "pB"
  else if u = "http://t/C" then "pC"
  else if u = "http://t/H" then "pH"
  else "pG"

/-- The total that the concrete site announces for a seed. -/
def siteTotal (u : String) : Int :=
  if u = "http://t/A" then 11
  else if u = "http://t/G" then 95
  else if u = "http://t/H" then 25
  else 9

/-- The records on the seed page of a seed of the concrete site. -/
def siteSeed (u : String) : List Animal :=
  if u = "http://t/A" then [siteAnimal "a0"]
  else if u = "http://t/B" then [siteAnimal "b0", siteAnimal "b1"]
  else if u = "http://t/H" then [siteAnimal "h0"]
  else ["c0", "c1", "c2", "c3", "c4", "c5", "c6", "c7", "c8", "c9"].map siteAnimal

/-- The records on an additional page of a seed of the concrete site. -/
def siteBatch (u : String) (p : Nat) : List Animal :=
  if u = "http://t/A" then [siteAnimal "a1"]
  else if p = 1 then [siteAnimal "h1"] else [siteAnimal "h2"]

end Tierschutz

namespace Arrivals

/-! ## The arrivals board (`airport-arrivals.go`) -/

/-- The `Flight` struct; `T` stands for `time.Time`, compared with Go's `==`. -/
structure Flight (T : Type) where
  Time : T
  City : String
  Codes : List String
  deriving DecidableEq, Repr

/-- The external world of `Flights`: the pattern matcher and the time parser. -/
structure ArrivalsEnv (T : Type) where
  /-- `flightsRE.FindAllSubmatch(b, -1)`; a submatch is
  `[whole match, time, code, city]` -/
  flightsFindAll : String → List (List String)
  /-- `time.Parse("15:04", s)`, `none` when it returns an error -/
  timeParse : String → Option T

/-- `ParseFlightSubmatch`: the triple `(time, city, code)`, `none` for an
error. -/
def ParseFlightSubmatch {T : Type} (env : ArrivalsEnv T) (flightSubmatch : List String) :
    Option (T × String × String) :=
  match env.timeParse (flightSubmatch.getD 1 "") with
  | none => none
  | some t => some (t, flightSubmatch.getD 3 "", flightSubmatch.getD 2 "")

/-- The variables of the loop of `Flights`.  Every element of the slice
`flights` points to an object of its own, so the slice is kept as the list of
these objects; `lastAddedFlight`, when not nil, points to the object at the
given position of the slice. -/
structure LoopState (T : Type) where
  flights : List (Flight T)
  lastAddedFlight : Option Nat

/-- One pass through the body of the loop of `Flights` after a successful
`ParseFlightSubmatch`.  `lastAddedFlight` always points into the slice, so the
branch for a position outside the slice is never taken. -/
def flightsStep {T : Type} [DecidableEq T] (st : LoopState T) (t : T) (city code : String) :
    LoopState T :=
  let flight : Flight T := { Time := t, City := city, Codes := [code] }
  let add : LoopState T :=
    { flights := st.flights ++ [flight], lastAddedFlight := some st.flights.length }
  match st.lastAddedFlight with
  | none => add
  | some last =>
    match st.flights[last]? with
    | none => add
    | some obj =>
      if obj.Time = t ∧ obj.City = city then
        { st with flights := st.flights.set last { obj with Codes := obj.Codes ++ [code] } }
      else add

/-- The loop of `Flights` over the submatches; a parse error leaves the loop
(`break`). -/
def FlightsLoop {T : Type} [DecidableEq T] (env : ArrivalsEnv T) :
    List (List String) → LoopState T → LoopState T
  | [], st => st
  | flight :: rest, st =>
    match ParseFlightSubmatch env flight with
    | none => st
    | some (t, city, code) => FlightsLoop env rest (flightsStep st t city code)

/-- `Flights`. -/
def Flights {T : Type} [DecidableEq T] (env : ArrivalsEnv T) (b : String) : List (Flight T) :=
  (FlightsLoop env (env.flightsFindAll b) { flights := [], lastAddedFlight := none }).flights

/-- Two parsed matches have the same time and city. -/
def sameSlot {T : Type} [DecidableEq T] (a b : T × String × String) : Bool :=
  decide (a.1 = b.1 ∧ a.2.1 = b.2.1)

/-- The record of a run of matches: time and city of its first match, the
codes of all its matches in order.  Only the empty list has no record. -/
def runFlight {T : Type} : List (T × String × String) → Option (Flight T)
  | [] => none
  | m :: ms => some { Time := m.1, City := m.2.1, Codes := (m :: ms).map (fun x => x.2.2) }

/-- The records that follow from an open record `cur` and the matches still to
come: a match of the same time and city adds its code to `cur`, any other match
closes `cur` and opens a new record. -/
def coalesceFrom {T : Type} [DecidableEq T] (cur : Flight T) :
    List (T × String × String) → List (Flight T)
  | [] => [cur]
  | m :: ms =>
    if cur.Time = m.1 ∧ cur.City = m.2.1 then
      coalesceFrom { cur with Codes := cur.Codes ++ [m.2.2] } ms
    else
      cur :: coalesceFrom { Time := m.1, City := m.2.1, Codes := [m.2.2] } ms

/-- A time of day, for a concrete board. -/
structure Clock where
  hour : Nat
  minute : Nat
  deriving DecidableEq, Repr

/-- The value of a decimal digit. -/
def digit (c : Char) : Option Nat :=
  if '0' ≤ c ∧ c ≤ '9' then some (c.toNat - 48) else none

/-- A time parser for a concrete board: the result of `time.Parse("15:04", s)`
on the strings `dd:dd` that the pattern of `Flights` matches (an hour above 23
or a minute above 59 is an error). -/
def clockParse (s : String) : Option Clock :=
  match s.data with
  | [h1, h2, ':', m1, m2] =>
    match digit h1, digit h2, digit m1, digit m2 with
    | some a, some b, some c, some d =>
      if a * 10 + b < 24 ∧ c * 10 + d < 60 then some ⟨a * 10 + b, c * 10 + d⟩ else none
    | _, _, _, _ => none
  | _ => none

/-- A concrete board: the page `board` shows three arrivals, the page `mixed`
shows an arrival of another slot between two arrivals of the same slot. -/
def boardEnv : ArrivalsEnv Clock where
  flightsFindAll := fun b =>
    if b = "board" then
      [["<tr>1", "09:00", "AB 123", "CityX"], ["<tr>2", "09:00", "CD 456", "CityX"],
        ["<tr>3", "10:00", "EF 789", "CityY"]]
    else if b = "mixed" then
      [["<tr>1", "09:00", "AB 123", "CityX"], ["<tr>2", "10:00", "EF 789", "CityY"],
        ["<tr>3", "09:00", "CD 456", "CityX"]]
    else []
  timeParse := clockParse

end Arrivals

namespace Tierschutz

/-! ## Lemmas on the completion order -/

theorem getD_cons_eraseIdx_perm (l : List Nat) (i d : Nat) (h : i < l.length) :
    (l.getD i d :: l.eraseIdx i).Perm l := by
  induction l generalizing i with
  | nil => simp at h
  | cons a l ih =>
    cases i with
    | zero => simp
    | succ i =>
      have hi : i < l.length := by simpa using h
      have h1 : ((a :: l).getD (i + 1) d :: (a :: l).eraseIdx (i + 1)).Perm
          (a :: l.getD i d :: l.eraseIdx i) := by
        simpa using List.Perm.swap a (l.getD i d) (l.eraseIdx i)
      exact h1.trans ((ih i hi).cons a)

theorem completionOrderAux_perm (fuel : Nat) :
    ∀ (choices pending : List Nat), pending.length ≤ fuel →
      (completionOrderAux fuel choices pending).Perm pending := by
  induction fuel with
  | zero =>
    intro choices pending h
    have : pending = [] := List.length_eq_zero.mp (Nat.le_zero.mp h)
    subst this
    simp [completionOrderAux]
  | succ fuel ih =>
    intro choices pending h
    cases pending with
    | nil => simp [completionOrderAux]
    | cons p ps =>
      have hi : choices.headD 0 % (ps.length + 1) < (p :: ps).length := by
        simpa using Nat.mod_lt _ (Nat.succ_pos ps.length)
      have hlen : ((p :: ps).eraseIdx (choices.headD 0 % (ps.length + 1))).length ≤ fuel := by
        rw [List.length_eraseIdx, if_pos hi]
        simpa using h
      have h1 := ih choices.tail _ hlen
      have h2 := getD_cons_eraseIdx_perm (p :: ps) _ p hi
      simp only [completionOrderAux]
      exact (h1.cons _).trans h2

/-- Every choice list yields a permutation of the launched pointers: each
goroutine is received exactly once. -/
theorem completionOrder_perm (choices pending : List Nat) :
    (completionOrder choices pending).Perm pending :=
  completionOrderAux_perm pending.length choices pending (Nat.le_refl _)

theorem completionOrder_nil (choices : List Nat) : completionOrder choices [] = [] := by
  simp [completionOrder, completionOrderAux]

/-! ## Lemmas on the scraper -/

theorem launchedPointers_of_le {total : Int} (h : total ≤ 10) : launchedPointers total = [] := by
  simp [launchedPointers, not_lt.mpr h]

theorem launchedPointers_of_gt {total : Int} (h : total > 10) :
    launchedPointers total = pointerLoop (pagesToParse total) := by
  simp [launchedPointers, h]

theorem receiveLoop_ok (env : Env) (url : String) (batch : Nat → List Animal) :
    ∀ (order : List Nat) (animals : List Animal),
      (∀ p ∈ order, pageTask env (urlWithPointer url p) = some (batch p)) →
      receiveLoop env url order animals = some (animals ++ (order.map batch).flatten) := by
  intro order
  induction order with
  | nil => intro animals _; simp [receiveLoop]
  | cons p rest ih =>
    intro animals h
    have hp := h p (List.mem_cons_self _ _)
    have hrest := ih (animals ++ batch p) (fun q hq => h q (List.mem_cons_of_mem _ hq))
    simp [receiveLoop, hp, hrest]

theorem receiveLoop_exit (env : Env) (url : String) (p : Nat)
    (hp : pageTask env (urlWithPointer url p) = none) :
    ∀ (order : List Nat) (animals : List Animal), p ∈ order →
      receiveLoop env url order animals = none := by
  intro order
  induction order with
  | nil => intro animals h; simp at h
  | cons q rest ih =>
    intro animals h
    by_cases hq : q = p
    · subst hq; simp [receiveLoop, hp]
    · have hmem : p ∈ rest := by
        rcases List.mem_cons.mp h with h1 | h1
        · exact absurd h1.symm hq
        · exact h1
      cases hres : pageTask env (urlWithPointer url q) with
      | none => simp [receiveLoop, hres]
      | some parsed => simp [receiveLoop, hres, ih (animals ++ parsed) hmem]

/-- The batches that `ParseShelterPage` receives are those of
`launchedPointers`, in completion order. -/
theorem ParseShelterPage_of_seed (env : Env) (choices : List Nat) (url page : String)
    (total : Int) (seed : List Animal)
    (h1 : GetPageContent env url = .ok page)
    (h2 : GetTotalAnimals env page = .ok total)
    (h3 : ParseAnimals env page = some seed) :
    ParseShelterPage env choices url =
      (receiveLoop env url (completionOrder choices (launchedPointers total)) seed).map
        (fun animals => (animals, none)) := by
  by_cases h : total > 10
  · simp only [ParseShelterPage, h1, h2, h3, if_pos h, launchedPointers_of_gt h]
    cases receiveLoop env url (completionOrder choices (pointerLoop (pagesToParse total))) seed
      <;> rfl
  · simp [ParseShelterPage, h1, h2, h3, if_neg h, launchedPointers_of_le (not_lt.mp h),
      completionOrder_nil, receiveLoop]

theorem ParseShelterPage_of_small_total (env : Env) (choices : List Nat) (url page : String)
    (total : Int) (animals : List Animal)
    (h1 : GetPageContent env url = .ok page)
    (h2 : GetTotalAnimals env page = .ok total)
    (hle : total ≤ 10)
    (h3 : ParseAnimals env page = some animals) :
    ParseShelterPage env choices url = some (animals, none) := by
  rw [ParseShelterPage_of_seed env choices url page total animals h1 h2 h3,
    launchedPointers_of_le hle, completionOrder_nil]
  simp [receiveLoop]

theorem ParseShelterPage_of_batches (env : Env) (choices : List Nat) (url page : String)
    (total : Int) (seed : List Animal) (batch : Nat → List Animal)
    (h1 : GetPageContent env url = .ok page)
    (h2 : GetTotalAnimals env page = .ok total)
    (h3 : ParseAnimals env page = some seed)
    (h4 : ∀ p ∈ launchedPointers total, pageTask env (urlWithPointer url p) = some (batch p)) :
    ParseShelterPage env choices url =
      some (seed ++ ((completionOrder choices (launchedPointers total)).map batch).flatten,
        none) := by
  have hperm := completionOrder_perm choices (launchedPointers total)
  rw [ParseShelterPage_of_seed env choices url page total seed h1 h2 h3,
    receiveLoop_ok env url batch _ seed (fun p hp => h4 p (hperm.mem_iff.mp hp))]
  rfl

theorem ParseAnimalsLoop_eq (env : Env) :
    ∀ (ms : List (List String)) (acc : List Animal),
      ParseAnimalsLoop env ms acc =
        if ms.all (fun m => (ParseAnimal env (m.getD 0 "")).toBool) then
          some (acc ++ ms.filterMap (fun m => (ParseAnimal env (m.getD 0 "")).toOption))
        else none := by
  intro ms
  induction ms with
  | nil => intro acc; simp [ParseAnimalsLoop]
  | cons m rest ih =>
    intro acc
    cases h : ParseAnimal env (m.getD 0 "") with
    | error e =>
      simp only [ParseAnimalsLoop, h, List.all_cons, Except.toBool, Bool.false_and]
      simp
    | ok a =>
      simp only [ParseAnimalsLoop, h, ih, List.all_cons, Except.toBool, Bool.true_and,
        List.filterMap_cons, Except.toOption, List.append_assoc, List.singleton_append]

theorem ParseShelterPagesLoop_ok (env : Env) (contrib : List Nat → String → List Animal) :
    ∀ (urls : List String) (scheds : List (List Nat)) (acc : List Animal),
      (∀ u ∈ urls, ∀ choices,
        ParseShelterPage env choices u = some (contrib choices u, none)) →
      ParseShelterPagesLoop env scheds urls acc =
        some (acc ++ mergeInSeedOrder contrib scheds urls, none) := by
  intro urls
  induction urls with
  | nil => intro scheds acc _; simp [ParseShelterPagesLoop, mergeInSeedOrder]
  | cons u us ih =>
    intro scheds acc h
    have hu := h u (List.mem_cons_self _ _) (scheds.headD [])
    have hus := ih scheds.tail (acc ++ contrib (scheds.headD []) u)
      (fun v hv => h v (List.mem_cons_of_mem _ hv))
    simp only [ParseShelterPagesLoop, hu, hus, mergeInSeedOrder, List.append_assoc]

theorem mergeInSeedOrder_const (batch : String → List Animal) :
    ∀ (urls : List String) (scheds : List (List Nat)),
      mergeInSeedOrder (fun _ u => batch u) scheds urls = (urls.map batch).flatten := by
  intro urls
  induction urls with
  | nil => intro scheds; simp [mergeInSeedOrder]
  | cons u us ih => intro scheds; simp [mergeInSeedOrder, ih]

/-- A seed URL whose call of `ParseShelterPage` ends the process ends the loop of
`ParseShelterPages` without a successful return. -/
theorem ParseShelterPagesLoop_no_success (env : Env) (u : String)
    (hu : ∀ choices, ParseShelterPage env choices u = none) :
    ∀ (urls : List String) (scheds : List (List Nat)) (acc : List Animal), u ∈ urls →
      ∀ animals, ParseShelterPagesLoop env scheds urls acc ≠ some (animals, none) := by
  intro urls
  induction urls with
  | nil => intro scheds acc h; simp at h
  | cons v vs ih =>
    intro scheds acc h animals
    by_cases hv : v = u
    · subst hv; simp [ParseShelterPagesLoop, hu]
    · have hmem : u ∈ vs := by
        rcases List.mem_cons.mp h with h1 | h1
        · exact absurd h1.symm hv
        · exact h1
      cases hres : ParseShelterPage env (scheds.headD []) v with
      | none => simp only [ParseShelterPagesLoop, hres]; simp
      | some r =>
        obtain ⟨a, e⟩ := r
        cases e with
        | some err => simp only [ParseShelterPagesLoop, hres]; simp
        | none =>
          simp only [ParseShelterPagesLoop, hres]
          exact ih scheds.tail (acc ++ a) hmem animals

theorem ParseShelterPage_exit_of_page_fetch_error (env : Env) (choices : List Nat)
    (url page : String) (total : Int) (p : Nat) (e : GoError)
    (h1 : GetPageContent env url = .ok page)
    (h2 : GetTotalAnimals env page = .ok total)
    (hp : p ∈ launchedPointers total)
    (hf : GetPageContent env (urlWithPointer url p) = .error e) :
    ParseShelterPage env choices url = none := by
  cases h3 : ParseAnimals env page with
  | none => simp [ParseShelterPage, h1, h2, h3]
  | some seed =>
    rw [ParseShelterPage_of_seed env choices url page total seed h1 h2 h3]
    have hexit : pageTask env (urlWithPointer url p) = none := by simp [pageTask, hf]
    have hmem : p ∈ completionOrder choices (launchedPointers total) :=
      (completionOrder_perm choices _).mem_iff.mpr hp
    simp [receiveLoop_exit env url p hexit _ seed hmem]

/-! ## Pagination plan -/

/-- For a non-negative total the code launches `total / 10` additional pages
when `total > 10` and none otherwise. -/
theorem launchedPointers_length (total : Nat) :
    (launchedPointers (total : Int)).length = if 10 < total then total / 10 else 0 := by
  by_cases h : 10 < total
  · have h' : (total : Int) > 10 := by omega
    have hdiv : Int.tdiv (total : Int) 10 = (total : Int) / 10 :=
      Int.tdiv_eq_ediv (by omega) (by omega)
    have hnat : ((total : Int) / 10).toNat = total / 10 := by omega
    simp [launchedPointers, h', pointerLoop, pagesToParse, hdiv, hnat, h]
  · have h' : ¬ (total : Int) > 10 := by omega
    simp [launchedPointers, h', h]

/-- Except at the multiples of 10 above 10, the code launches the number of
pages of the pagination contract. -/
theorem launchedPointers_length_eq_spec (total : Nat) (h : total ≤ 10 ∨ total % 10 ≠ 0) :
    (launchedPointers (total : Int)).length = specPlanSize total := by
  rw [launchedPointers_length]
  unfold specPlanSize
  split <;> omega

/-- C1: at a total of 20 the code launches the pointers 1 and 2, one page more
than the `max(0, ceil(total/10) - 1) = 1` of the pagination contract, although
its own guard `totalAnimals > 10` treats 10 records as one full page. -/
theorem launchedPointers_twenty_overshoots :
    launchedPointers 20 = [1, 2] ∧ specPlanSize 20 = 1 ∧
      launchedPointers 10 = [] ∧ specPlanSize 10 = 0 := by
  decide

/-! ## Seed pages without pagination -/

/-- C10: when the fetch of the seed page succeeds and its total is at most 10
(the default 9 of a page without count signal included), `ParseShelterPage`
launches no additional page and returns exactly the records parsed from the
seed page, in page order, without error. -/
theorem ParseShelterPage_small_total (env : Env) (choices : List Nat) (url page : String)
    (total : Int) (animals : List Animal)
    (h1 : GetPageContent env url = .ok page)
    (h2 : GetTotalAnimals env page = .ok total)
    (hle : total ≤ 10)
    (h3 : ParseAnimals env page = some animals) :
    launchedPointers total = [] ∧ ParseShelterPage env choices url = some (animals, none) := by
  exact ⟨launchedPointers_of_le hle,
    ParseShelterPage_of_small_total env choices url page total animals h1 h2 hle h3⟩

theorem ParseShelterPage_small_total_witness :
    launchedPointers 9 = [] ∧
      ParseShelterPage siteEnv [3, 1] "http://t/B" =
        some ([siteAnimal "b0", siteAnimal "b1"], none) :=
  ParseShelterPage_small_total siteEnv [3, 1] "http://t/B" "pB" 9
    [siteAnimal "b0", siteAnimal "b1"]
    (by rfl) (by rfl) (by decide) (by decide)

/-- C7 (as amended): a seed page without count signal, fetched successfully, is
returned whole and without error, however many records are parsed from it. -/
theorem ParseShelterPage_noSignal (env : Env) (choices : List Nat) (url page : String)
    (animals : List Animal)
    (h1 : GetPageContent env url = .ok page)
    (h2 : env.totalAnimalsFind page = [])
    (h3 : ParseAnimals env page = some animals) :
    ParseShelterPage env choices url = some (animals, none) := by
  have h9 : GetTotalAnimals env page = .ok 9 := by simp [GetTotalAnimals, h2]
  exact ParseShelterPage_of_small_total env choices url page 9 animals h1 h9 (by decide) h3

theorem ParseShelterPage_noSignal_witness :
    ParseShelterPage siteEnv [] "http://t/C" =
      some (["c0", "c1", "c2", "c3", "c4", "c5", "c6", "c7", "c8", "c9"].map siteAnimal, none) :=
  ParseShelterPage_noSignal siteEnv [] "http://t/C" "pC" _ (by rfl) (by decide) (by decide)

/-- C7 (counterexample): the seed page of `C` has no count signal and ten
records; `ParseShelterPage` returns the ten records and no error. -/
theorem noSignal_ten_records_returned :
    siteEnv.totalAnimalsFind "pC" = [] ∧
      (GetPageContent siteEnv "http://t/C").toOption = some "pC" ∧
      ((ParseAnimals siteEnv "pC").map List.length = some 10 ∧ 9 < 10) ∧
      ParseShelterPage siteEnv [] "http://t/C" =
        some ([siteAnimal "c0", siteAnimal "c1", siteAnimal "c2", siteAnimal "c3",
          siteAnimal "c4", siteAnimal "c5", siteAnimal "c6", siteAnimal "c7",
          siteAnimal "c8", siteAnimal "c9"], none) := by
  decide

/-- C3: when every seed URL is fetched successfully, needs no pagination
(total at most 10) and parses into the batch `batch u`, `ParseShelterPages`
returns the concatenation of the batches in the order of the URL list, without
error; for the list `[A, B]` that is `batch A ++ batch B`. -/
theorem ParseShelterPages_unpaginated_concat (env : Env) (scheds : List (List Nat))
    (urls : List String) (page : String → String) (total : String → Int)
    (batch : String → List Animal)
    (h1 : ∀ u ∈ urls, GetPageContent env u = .ok (page u))
    (h2 : ∀ u ∈ urls, GetTotalAnimals env (page u) = .ok (total u))
    (hle : ∀ u ∈ urls, total u ≤ 10)
    (h3 : ∀ u ∈ urls, ParseAnimals env (page u) = some (batch u)) :
    ParseShelterPages env scheds urls = some ((urls.map batch).flatten, none) := by
  have h := ParseShelterPagesLoop_ok env (fun _ u => batch u) urls scheds []
    (fun u hu choices =>
      ParseShelterPage_of_small_total env choices u (page u) (total u) (batch u)
        (h1 u hu) (h2 u hu) (hle u hu) (h3 u hu))
  rw [mergeInSeedOrder_const] at h
  simpa [ParseShelterPages] using h

theorem ParseShelterPages_unpaginated_concat_witness :
    ParseShelterPages siteEnv [] ["http://t/C", "http://t/B"] =
      some (siteSeed "http://t/C" ++ siteSeed "http://t/B", none) :=
  ParseShelterPages_unpaginated_concat siteEnv [] ["http://t/C", "http://t/B"]
    sitePage siteTotal siteSeed
    (by decide) (by decide) (by decide) (by decide)

/-! ## Merging the additional pages -/

/-- C4: when the seed page and every launched additional page are fetched and
parsed successfully, then for every completion order `ParseShelterPage` returns
the seed records followed by the batch of every launched page, each exactly
once: as many batches are received as pages were launched, the length is
`|seed| + Σ |batch p|`, and when the batches are duplicate-free and pairwise
disjoint by URL no URL occurs twice in the result. -/
theorem ParseShelterPage_merges_each_batch_once (env : Env) (choices : List Nat)
    (url page : String) (total : Int) (seed : List Animal) (batch : Nat → List Animal)
    (h1 : GetPageContent env url = .ok page)
    (h2 : GetTotalAnimals env page = .ok total)
    (h3 : ParseAnimals env page = some seed)
    (h4 : ∀ p ∈ launchedPointers total, pageTask env (urlWithPointer url p) = some (batch p)) :
    (completionOrder choices (launchedPointers total)).Perm (launchedPointers total) ∧
    (completionOrder choices (launchedPointers total)).length = (launchedPointers total).length ∧
    ParseShelterPage env choices url =
      some (seed ++ ((completionOrder choices (launchedPointers total)).map batch).flatten,
        none) ∧
    (seed ++ ((completionOrder choices (launchedPointers total)).map batch).flatten).length =
      seed.length + ((launchedPointers total).map (fun p => (batch p).length)).sum ∧
    ((∀ b ∈ seed :: (launchedPointers total).map batch, (b.map Animal.URL).Nodup) →
      (seed :: (launchedPointers total).map batch).Pairwise
        (fun b c => (b.map Animal.URL).Disjoint (c.map Animal.URL)) →
      ((seed ++ ((completionOrder choices (launchedPointers total)).map batch).flatten).map
        Animal.URL).Nodup) := by
  have hperm := completionOrder_perm choices (launchedPointers total)
  refine ⟨hperm, hperm.length_eq, ?_, ?_, ?_⟩
  · exact ParseShelterPage_of_batches env choices url page total seed batch h1 h2 h3 h4
  · have hsum : (((completionOrder choices (launchedPointers total)).map batch).map
        List.length).sum = ((launchedPointers total).map (fun p => (batch p).length)).sum := by
      rw [List.map_map]
      exact (hperm.map _).sum_eq
    rw [List.length_append, List.length_flatten, hsum]
  · intro hnodup hdisj
    have hP : (seed :: (completionOrder choices (launchedPointers total)).map batch).Perm
        (seed :: (launchedPointers total).map batch) := (hperm.map batch).cons seed
    have hflat : (seed ++ ((completionOrder choices (launchedPointers total)).map
        batch).flatten).map Animal.URL =
        ((seed :: (completionOrder choices (launchedPointers total)).map batch).map
          (List.map Animal.URL)).flatten := by
      simp
    rw [hflat, List.nodup_flatten]
    constructor
    · intro l hl
      obtain ⟨b, hb, rfl⟩ := List.mem_map.mp hl
      exact hnodup b (hP.mem_iff.mp hb)
    · rw [List.pairwise_map]
      exact hP.symm.pairwise hdisj (fun h => h.symm)

theorem ParseShelterPage_merges_each_batch_once_witness :
    (completionOrder [1] (launchedPointers 25)).Perm (launchedPointers 25) ∧
    (completionOrder [1] (launchedPointers 25)).length = 2 ∧
    ParseShelterPage siteEnv [1] "http://t/H" =
      some ([siteAnimal "h0", siteAnimal "h2", siteAnimal "h1"], none) ∧
    [siteAnimal "h0", siteAnimal "h2", siteAnimal "h1"].length = 1 + (1 + 1) ∧
    ([siteAnimal "h0", siteAnimal "h2", siteAnimal "h1"].map Animal.URL).Nodup := by
  have h := ParseShelterPage_merges_each_batch_once siteEnv [1] "http://t/H" "pH" 25
    [siteAnimal "h0"] (siteBatch "http://t/H") (by rfl) (by rfl) (by decide) (by decide)
  have hl : launchedPointers 25 = [1, 2] := by decide
  have hdisj : ([siteAnimal "h0"] :: (launchedPointers 25).map (siteBatch "http://t/H")).Pairwise
      (fun b c => (b.map Animal.URL).Disjoint (c.map Animal.URL)) := by
    rw [hl]
    simp [siteBatch, siteAnimal, List.Disjoint]
  exact ⟨h.1, h.2.1, h.2.2.1, h.2.2.2.1, h.2.2.2.2 (by decide) hdisj⟩

/-- Every completion order of the launched pointers is produced by some choice
list, so quantifying over the choice lists covers every completion order. -/
theorem completionOrder_complete (order : List Nat) :
    ∀ pending : List Nat, order.Perm pending →
      ∃ choices, completionOrder choices pending = order := by
  induction order with
  | nil =>
    intro pending h
    have : pending = [] := h.symm.eq_nil
    subst this
    exact ⟨[], completionOrder_nil []⟩
  | cons x xs ih =>
    intro pending h
    have hx : x ∈ pending := h.mem_iff.mp (List.mem_cons_self _ _)
    have hrest : xs.Perm (pending.erase x) := (List.cons_perm_iff_perm_erase.mp h).2
    have hi : pending.indexOf x < pending.length := List.indexOf_lt_length.mpr hx
    have herase : pending.erase x = pending.eraseIdx (pending.indexOf x) :=
      (List.eraseIdx_indexOf_eq_erase x pending).symm
    obtain ⟨cs, hcs⟩ := ih (pending.erase x) hrest
    refine ⟨pending.indexOf x :: cs, ?_⟩
    cases hp : pending with
    | nil => rw [hp] at hx; simp at hx
    | cons p ps =>
      rw [hp] at hi herase hcs
      have hmod : (p :: ps).indexOf x % (ps.length + 1) = (p :: ps).indexOf x :=
        Nat.mod_eq_of_lt (by simpa using hi)
      have hget : (p :: ps).getD ((p :: ps).indexOf x) p = x := by
        rw [List.getD_eq_getElem _ _ hi]
        exact List.getElem_indexOf hi
      have hlen : ((p :: ps).eraseIdx ((p :: ps).indexOf x)).length = ps.length := by
        rw [List.length_eraseIdx, if_pos hi]
        simp
      have hrec : completionOrderAux ps.length cs ((p :: ps).eraseIdx ((p :: ps).indexOf x))
          = xs := by
        rw [← hlen, ← herase]
        exact hcs
      simp only [completionOrder, List.length_cons, completionOrderAux, List.headD_cons,
        List.tail_cons, hmod, hget, hrec]

/-! ## Records that do not parse -/

/-- C5 (as amended): `ParseAnimals` returns the records of all matches, in page
order, when every match parses; as soon as one match does not parse the process
is terminated and no record of the page is returned. -/
theorem ParseAnimals_all_or_exit (env : Env) (page : String) :
    ParseAnimals env page =
      if (env.animalFindAll page).all (fun m => (ParseAnimal env (m.getD 0 "")).toBool) then
        some ((env.animalFindAll page).filterMap
          (fun m => (ParseAnimal env (m.getD 0 "")).toOption))
      else none := by
  simpa [ParseAnimals] using ParseAnimalsLoop_eq env (env.animalFindAll page) []

/-- C5 (counterexample): the page of `D` matches one record without name and
link and two well-formed records; `ParseAnimals` does not return the two
well-formed records: the process is terminated. -/
theorem ParseAnimals_malformed_record_ends_process :
    siteEnv.animalFindAll "pD" = [["bad"], ["d1"], ["d2"]] ∧
      ParseNameAndURL siteEnv "bad" = .error .nameAndURL ∧
      ParseAnimal siteEnv "d1" = .ok (siteAnimal "d1") ∧
      ParseAnimal siteEnv "d2" = .ok (siteAnimal "d2") ∧
      ParseAnimals siteEnv "pD" = none ∧
      ParseAnimals siteEnv "pD" ≠ some [siteAnimal "d1", siteAnimal "d2"] := by
  decide

/-! ## Failing fetches -/

/-- C6 (as amended): when `http.Get` or the reading of the body returns an
error for an additional page launched for some seed URL of a source, the
goroutine of the source never reaches `SaveResult`, whatever the completion
order and however many other pages were fetched: the source contributes no
record to the output. -/
theorem sourceTask_fails_on_page_transport_error (env : Env) (scheds : List (List Nat))
    (source : AnimalSource) (u page : String) (total : Int) (p : Nat) (e : GoError)
    (hu : u ∈ source.URLs)
    (h1 : GetPageContent env u = .ok page)
    (h2 : GetTotalAnimals env page = .ok total)
    (hp : p ∈ launchedPointers total)
    (hf : env.httpGet (urlWithPointer u p) = .error e) :
    sourceTask env scheds source = none ∧ savedRecords env scheds source = [] := by
  have hget : GetPageContent env (urlWithPointer u p) = .error e := by
    simp [GetPageContent, hf]
  have hexit : ∀ choices, ParseShelterPage env choices u = none := fun choices =>
    ParseShelterPage_exit_of_page_fetch_error env choices u page total p e h1 h2 hp hget
  have hno := ParseShelterPagesLoop_no_success env u hexit source.URLs scheds [] hu
  have hsrc : sourceTask env scheds source = none := by
    unfold sourceTask ParseShelterPages
    cases hres : ParseShelterPagesLoop env scheds source.URLs [] with
    | none => rfl
    | some r =>
      obtain ⟨a, err⟩ := r
      cases err with
      | some err => rfl
      | none => exact absurd hres (hno a)
  exact ⟨hsrc, by simp [savedRecords, hsrc]⟩

theorem sourceTask_fails_on_page_transport_error_witness :
    (launchedPointers 95).length = 9 ∧
      ((launchedPointers 95).filter
        (fun p => (GetPageContent siteEnv (urlWithPointer "http://t/G" p)).toBool)).length = 8 ∧
      sourceTask siteEnv [] ⟨"dogs", ["http://t/B", "http://t/G"]⟩ = none ∧
      savedRecords siteEnv [] ⟨"dogs", ["http://t/B", "http://t/G"]⟩ = [] :=
  ⟨by decide, by decide,
    sourceTask_fails_on_page_transport_error siteEnv [] ⟨"dogs", ["http://t/B", "http://t/G"]⟩
      "http://t/G" "pG" 95 9
      (.transport "connection reset") (by decide) (by decide) (by decide) (by decide)
      (by decide)⟩

/-- C6 (counterexample): page 1 of seed `K` is launched and answered with
status 404; `GetPageContent` returns its body without error, the body is parsed
like a page, and the source `[K]` saves the record of its seed page: a fetch
that fails with a status outside 200-299 does not make the source fail. -/
theorem page_answered_404_source_saves_records :
    (GetPageContent siteEnv "http://t/K").toOption = some "pK" ∧
      GetTotalAnimals siteEnv "pK" = .ok 11 ∧
      1 ∈ launchedPointers 11 ∧
      siteEnv.httpGet (urlWithPointer "http://t/K" 1) = .ok ⟨404, "404 page not found"⟩ ∧
      pageTask siteEnv (urlWithPointer "http://t/K" 1) = some [] ∧
      sourceTask siteEnv [] ⟨"dogs", ["http://t/K"]⟩ = some ("dogs", [siteAnimal "k0"]) ∧
      savedRecords siteEnv [] ⟨"dogs", ["http://t/K"]⟩ ≠ [] := by
  decide

/-- C8: for the seed URLs `[B, E]`, where `B` is fetched and parsed and the
fetch of `E` fails, `ParseShelterPages` reports the error but the collection it
returns with it holds the two records of `B`; it is not empty. -/
theorem ParseShelterPages_error_keeps_earlier_records :
    ParseShelterPage siteEnv [] "http://t/E" = some ([], some (.transport "connection refused")) ∧
      ParseShelterPages siteEnv [] ["http://t/B", "http://t/E"] =
        some ([siteAnimal "b0", siteAnimal "b1"], some (.transport "connection refused")) := by
  decide

/-! ## Order of the merged result -/

/-- C9 (as amended): when all fetches and parses succeed, the result of
`ParseShelterPages` is the concatenation, in seed-declaration order, of the
contributions of the seed URLs, where the contribution of a seed URL is the
records of its seed page followed by the records of its additional pages in
completion order. -/
theorem ParseShelterPages_per_seed_order (env : Env) (scheds : List (List Nat))
    (urls : List String) (page : String → String) (total : String → Int)
    (seed : String → List Animal) (batch : String → Nat → List Animal)
    (h1 : ∀ u ∈ urls, GetPageContent env u = .ok (page u))
    (h2 : ∀ u ∈ urls, GetTotalAnimals env (page u) = .ok (total u))
    (h3 : ∀ u ∈ urls, ParseAnimals env (page u) = some (seed u))
    (h4 : ∀ u ∈ urls, ∀ p ∈ launchedPointers (total u),
      pageTask env (urlWithPointer u p) = some (batch u p)) :
    ParseShelterPages env scheds urls =
      some (mergeInSeedOrder
        (fun choices u =>
          seed u ++ ((completionOrder choices (launchedPointers (total u))).map (batch u)).flatten)
        scheds urls, none) := by
  have h := ParseShelterPagesLoop_ok env
    (fun choices u =>
      seed u ++ ((completionOrder choices (launchedPointers (total u))).map (batch u)).flatten)
    urls scheds []
    (fun u hu choices =>
      ParseShelterPage_of_batches env choices u (page u) (total u) (seed u)
        (batch u) (h1 u hu) (h2 u hu) (h3 u hu) (h4 u hu))
  simpa [ParseShelterPages] using h

theorem ParseShelterPages_per_seed_order_witness :
    ParseShelterPages siteEnv [[1]] ["http://t/H", "http://t/B"] =
      some ([siteAnimal "h0", siteAnimal "h2", siteAnimal "h1", siteAnimal "b0",
        siteAnimal "b1"], none) :=
  ParseShelterPages_per_seed_order siteEnv [[1]] ["http://t/H", "http://t/B"]
    sitePage siteTotal siteSeed
    siteBatch (by decide) (by decide) (by decide) (by decide)

/-- C9 (counterexample): for the seed URLs `[A, B]`, where `A` has one
additional page, the record of that page precedes the records of the seed page
of `B`; the result is not "all seed pages first". -/
theorem additional_page_precedes_later_seed :
    ParseAnimals siteEnv "pA" = some [siteAnimal "a0"] ∧
      pageTask siteEnv (urlWithPointer "http://t/A" 1) = some [siteAnimal "a1"] ∧
      ParseAnimals siteEnv "pB" = some [siteAnimal "b0", siteAnimal "b1"] ∧
      ParseShelterPages siteEnv [] ["http://t/A", "http://t/B"] =
        some ([siteAnimal "a0", siteAnimal "a1", siteAnimal "b0", siteAnimal "b1"], none) ∧
      ParseShelterPages siteEnv [] ["http://t/A", "http://t/B"] ≠
        some ([siteAnimal "a0"] ++ [siteAnimal "b0", siteAnimal "b1"] ++ [siteAnimal "a1"],
          none) := by
  decide

end Tierschutz

namespace Arrivals

/-! ## Coalescing of adjacent arrivals -/

theorem FlightsLoop_of_parsed {T : Type} [DecidableEq T] (env : ArrivalsEnv T) :
    ∀ (flightsRes : List (List String)) (parsed : List (T × String × String))
      (st : LoopState T),
      flightsRes.map (ParseFlightSubmatch env) = parsed.map some →
      FlightsLoop env flightsRes st =
        parsed.foldl (fun st m => flightsStep st m.1 m.2.1 m.2.2) st := by
  intro flightsRes
  induction flightsRes with
  | nil =>
    intro parsed st h
    cases parsed with
    | nil => rfl
    | cons m ms => simp at h
  | cons f rest ih =>
    intro parsed st h
    cases parsed with
    | nil => simp at h
    | cons m ms =>
      simp only [List.map_cons, List.cons.injEq] at h
      obtain ⟨t, city, code⟩ := m
      simp only [FlightsLoop, h.1, List.foldl_cons]
      exact ih ms _ h.2

theorem flightsStep_same {T : Type} [DecidableEq T] (pre : List (Flight T)) (cur : Flight T)
    (t : T) (city code : String)
    (h : cur.Time = t ∧ cur.City = city) :
    flightsStep { flights := pre ++ [cur], lastAddedFlight := some pre.length } t city code =
      { flights := pre ++ [{ cur with Codes := cur.Codes ++ [code] }],
        lastAddedFlight := some pre.length } := by
  simp [flightsStep, h]

theorem flightsStep_other {T : Type} [DecidableEq T] (pre : List (Flight T)) (cur : Flight T)
    (t : T) (city code : String)
    (h : ¬ (cur.Time = t ∧ cur.City = city)) :
    flightsStep { flights := pre ++ [cur], lastAddedFlight := some pre.length } t city code =
      { flights := (pre ++ [cur]) ++ [{ Time := t, City := city, Codes := [code] }],
        lastAddedFlight := some (pre ++ [cur]).length } := by
  simp [flightsStep, h]

theorem foldl_flightsStep_flights {T : Type} [DecidableEq T] :
    ∀ (ms : List (T × String × String)) (pre : List (Flight T)) (cur : Flight T),
      (ms.foldl (fun st m => flightsStep st m.1 m.2.1 m.2.2)
        { flights := pre ++ [cur], lastAddedFlight := some pre.length }).flights =
        pre ++ coalesceFrom cur ms := by
  intro ms
  induction ms with
  | nil => intro pre cur; simp [coalesceFrom]
  | cons m ms ih =>
    intro pre cur
    by_cases h : cur.Time = m.1 ∧ cur.City = m.2.1
    · rw [List.foldl_cons, flightsStep_same pre cur m.1 m.2.1 m.2.2 h, ih]
      simp [coalesceFrom, h]
    · rw [List.foldl_cons, flightsStep_other pre cur m.1 m.2.1 m.2.2 h, ih]
      simp [coalesceFrom, h]

theorem runFlight_append_singleton {T : Type} (run : List (T × String × String)) (cur : Flight T)
    (a : T × String × String) (h : runFlight run = some cur) :
    runFlight (run ++ [a]) = some { cur with Codes := cur.Codes ++ [a.2.2] } := by
  cases run with
  | nil => simp [runFlight] at h
  | cons m ms =>
    simp only [runFlight, Option.some.injEq] at h
    subst h
    simp [runFlight]

theorem splitByLoop_filterMap_runFlight {T : Type} [DecidableEq T] :
    ∀ (as : List (T × String × String)) (ag : T × String × String)
      (g : List (T × String × String)) (gs : List (List (T × String × String)))
      (cur : Flight T),
      runFlight (ag :: g).reverse = some cur → cur.Time = ag.1 → cur.City = ag.2.1 →
      (List.splitBy.loop sameSlot as ag g gs).filterMap runFlight =
        gs.reverse.filterMap runFlight ++ coalesceFrom cur as := by
  intro as
  induction as with
  | nil =>
    intro ag g gs cur hcur _ _
    simp only [List.splitBy.loop, List.reverse_cons, List.filterMap_append, coalesceFrom]
    simp only [List.reverse_cons] at hcur
    simp [hcur]
  | cons a as ih =>
    intro ag g gs cur hcur ht hc
    by_cases h : cur.Time = a.1 ∧ cur.City = a.2.1
    · have hs : sameSlot ag a = true := by
        simp only [sameSlot, decide_eq_true_eq]
        exact ⟨ht ▸ h.1, hc ▸ h.2⟩
      have hnext : runFlight (a :: ag :: g).reverse =
          some { cur with Codes := cur.Codes ++ [a.2.2] } := by
        rw [List.reverse_cons]
        exact runFlight_append_singleton _ cur a hcur
      simp only [List.splitBy.loop, hs, coalesceFrom, if_pos h]
      exact ih a (ag :: g) gs _ hnext h.1 h.2
    · have hs : sameSlot ag a = false := by
        simp only [sameSlot, decide_eq_false_iff_not]
        intro hh
        exact h ⟨ht.trans hh.1, hc.trans hh.2⟩
      have hnext : runFlight ([a] : List (T × String × String)).reverse =
          some { Time := a.1, City := a.2.1, Codes := [a.2.2] } := by
        simp [runFlight]
      simp only [List.splitBy.loop, hs, coalesceFrom, if_neg h]
      rw [ih a [] ((ag :: g).reverse :: gs) _ hnext rfl rfl]
      simp only [List.reverse_cons] at hcur
      simp [hcur]

theorem filterMap_runFlight_length {T : Type} :
    ∀ (L : List (List (T × String × String))), [] ∉ L →
      (L.filterMap runFlight).length = L.length := by
  intro L
  induction L with
  | nil => intro _; rfl
  | cons r rs ih =>
    intro h
    have hr : r ≠ [] := fun hr => h (by simp [hr])
    have hrs : [] ∉ rs := fun hrs => h (List.mem_cons_of_mem _ hrs)
    cases r with
    | nil => exact absurd rfl hr
    | cons m ms => simp [runFlight, ih hrs]

/-- C2: when every raw match parses, `Flights` emits one record per maximal run
of immediately consecutive matches with equal time and city, in input order;
the record has the time and city of the run and the codes of the run in input
order. -/
theorem Flights_one_record_per_run {T : Type} [DecidableEq T] (env : ArrivalsEnv T)
    (b : String)
    (parsed : List (T × String × String))
    (h : (env.flightsFindAll b).map (ParseFlightSubmatch env) = parsed.map some) :
    Flights env b = (parsed.splitBy sameSlot).filterMap runFlight ∧
      (Flights env b).length = (parsed.splitBy sameSlot).length := by
  have hmain : Flights env b = (parsed.splitBy sameSlot).filterMap runFlight := by
    unfold Flights
    rw [FlightsLoop_of_parsed env _ parsed _ h]
    cases parsed with
    | nil => rfl
    | cons m ms =>
      have hstep : flightsStep ({ flights := [], lastAddedFlight := none } : LoopState T)
          m.1 m.2.1 m.2.2 =
          { flights := [] ++ [{ Time := m.1, City := m.2.1, Codes := [m.2.2] }],
            lastAddedFlight := some ([] : List (Flight T)).length } := by
        simp [flightsStep]
      rw [List.foldl_cons, hstep, foldl_flightsStep_flights]
      have hloop := splitByLoop_filterMap_runFlight ms m [] []
        { Time := m.1, City := m.2.1, Codes := [m.2.2] } (by simp [runFlight]) rfl rfl
      simpa [List.splitBy] using hloop.symm
  refine ⟨hmain, ?_⟩
  rw [hmain]
  exact filterMap_runFlight_length _ (List.nil_not_mem_splitBy sameSlot parsed)

theorem Flights_one_record_per_run_witness :
    Flights boardEnv "board" =
        [⟨⟨9, 0⟩, "CityX", ["AB 123", "CD 456"]⟩,
          ⟨⟨10, 0⟩, "CityY", ["EF 789"]⟩] ∧
      Flights boardEnv "mixed" =
        [⟨⟨9, 0⟩, "CityX", ["AB 123"]⟩, ⟨⟨10, 0⟩, "CityY", ["EF 789"]⟩,
          ⟨⟨9, 0⟩, "CityX", ["CD 456"]⟩] := by
  have h1 := Flights_one_record_per_run boardEnv "board"
    [(⟨9, 0⟩, "CityX", "AB 123"), (⟨9, 0⟩, "CityX", "CD 456"),
      (⟨10, 0⟩, "CityY", "EF 789")]
    (by decide)
  have h2 := Flights_one_record_per_run boardEnv "mixed"
    [(⟨9, 0⟩, "CityX", "AB 123"), (⟨10, 0⟩, "CityY", "EF 789"),
      (⟨9, 0⟩, "CityX", "CD 456")]
    (by decide)
  exact ⟨h1.1.trans (by decide), h2.1.trans (by decide)⟩

end Arrivals
